import Mathlib

/-!
# Verification of the agentic Reddit signal engine (`backend/engine.py`)

This file is a shallow embedding, in Lean 4, of the core feedback-loop engine of
the repository: `safe_parse_json`, `analyze_threads` (the merge of model output
with the original thread records), `evaluate_coverage`, `search_all_queries`,
`synthesize_report` and the orchestrator `run_reddit_signal_engine`.

Modelling conventions:

* Python dicts produced by `json.loads` are modelled either as records with
  `Option`-typed fields (a `none` field stands for an absent key; `Option.getD`
  mirrors `dict.get(key, default)`) or, for the generic JSON values of
  `safe_parse_json`, as an explicit `Json` inductive.
* The two external collaborators — the OpenAI chat call (`call_openai` plus the
  prompt templates of `prompts.py`) and the Reddit client
  (`search_reddit` / `fetch_thread_comments`) — are abstracted as oracle
  functions.  An oracle for a generation stage returns the *post-normalizer*
  structured value of that stage (the repository's own glue around the call —
  the `isinstance(..., list)` checks, the merge step, the accumulation — stays
  in the Lean definitions below).  A transport-level failure of the OpenAI call
  (authentication / quota) is an `Except.error`, mirroring the fact that
  `engine.py` contains no try/except around `call_openai`, so such exceptions
  propagate out of `run_reddit_signal_engine`.
* Python's `sorted(..., key=k, reverse=True)` is a *stable* descending sort; it
  is modelled by `List.insertionSort` with the relation `k b ≤ k a`, which is
  stable with the same tie-breaking (earlier element first).
* Python `set` iteration order is unspecified; the competitor set of
  `evaluate_coverage` is modelled as a first-insertion-ordered duplicate-free
  list.  No statement below depends on its order.
* Wall-clock fields (`elapsed_seconds`, `start_time`) and logging are not
  modelled; status callbacks are modelled by an explicit event trace so that
  statements such as "iteration 1 always generates" can name the control path
  actually taken.
-/

/- ───────────────────────── Config constants (engine.py, lines 37–43) ───── -/

/-- max feedback-loop cycles (`MAX_ITERATIONS = 3`). -/
def MAX_ITERATIONS : Nat := 3

/-- queries generated in round 1 (`INITIAL_QUERIES = 6`). -/
def INITIAL_QUERIES : Nat := 6

/-- queries generated per refinement round (`REFINEMENT_QUERIES = 4`). -/
def REFINEMENT_QUERIES : Nat := 4

/-- minimum threads needed per signal type before we stop
(`MIN_SIGNALS_PER_TYPE = 2`). -/
def MIN_SIGNALS_PER_TYPE : Nat := 2

/- ───────────────────────── JSON model and safe_parse_json ───────────────── -/

/-- Generic JSON value, the result of Python's `json.loads`.  Numbers are
modelled as integers (sufficient for every value these claims touch). -/
inductive Json where
  | null : Json
  | bool (b : Bool) : Json
  | num (n : Int) : Json
  | str (s : String) : Json
  | arr (xs : List Json) : Json
  | obj (kvs : List (String × Json)) : Json

/-- Python dict lookup on an association list: the *last* binding of a key wins,
exactly as duplicate keys behave in a dict built left to right. -/
def pyDictGet {α : Type} (kvs : List (String × α)) (k : String) : Option α :=
  kvs.foldl (fun acc kv => if kv.1 = k then some kv.2 else acc) none

/-- Wrapper keys recognized by `safe_parse_json` (engine.py line 77), in the
order the Python `for` loop tries them. -/
def WRAPPER_KEYS : List String := ["queries", "results", "threads", "signals", "data"]

/-- First wrapper key (in `WRAPPER_KEYS` order) that is present in the object
with a list value; mirrors the `for key in (...)` loop body of
`safe_parse_json`: a key that is present but not list-valued is skipped. -/
def unwrapWrapperKeys (kvs : List (String × Json)) : Option (List Json) :=
  WRAPPER_KEYS.findSome? fun k =>
    match pyDictGet kvs k with
    | some (Json.arr xs) => some xs
    | _ => none

/-- Shallow embedding of `safe_parse_json` (engine.py lines 65–83) from the
point where `json.loads` has run.  The input is `none` when `json.loads`
raised `JSONDecodeError` (then the function logs and returns `[]`), and
`some parsed` otherwise.  The string-level preprocessing (strip, fence
removal) only feeds `json.loads` and is not modelled separately. -/
def safe_parse_json (parseResult : Option Json) : Json :=
  match parseResult with
  | none => Json.arr []
  | some parsed =>
    match parsed with
    | Json.obj kvs =>
      match unwrapWrapperKeys kvs with
      | some xs => Json.arr xs
      | none => Json.obj kvs
    | other => other

/- ───────────────────────── Thread / signal data model ───────────────────── -/

/-- Record produced by the Reddit client for one thread (`reddit_client.py`
lines 51–66), as consumed by the engine: `id`, `title`, `selftext`,
`subreddit`, `score`, `num_comments`, `url`, plus the `top_comments` the
engine attaches in `search_all_queries`. -/
structure RawThread where
  id : String
  title : String
  selftext : String
  subreddit : String
  score : Int
  num_comments : Int
  url : String
  top_comments : List String
deriving Repr, DecidableEq

/-- One element of the JSON array the analysis model returns (the shape
requested by `ANALYSIS_USER` in `prompts.py`).  Every field is optional
because the model is unconstrained; the factual fields (`title`, `url`,
`subreddit`, `score`, `num_comments`) are included so that the merge step can
be shown to ignore them even when the model emits them. -/
structure AnalyzedEntry where
  thread_id : Option String := none
  relevance_score : Option Int := none
  signal_type : Option String := none
  insight : Option String := none
  competing_products : Option (List String) := none
  unmet_needs : Option (List String) := none
  key_quotes : Option (List String) := none
  title : Option String := none
  url : Option String := none
  subreddit : Option String := none
  score : Option Int := none
  num_comments : Option Int := none
deriving Repr, DecidableEq

/-- Enriched signal dict built by `analyze_threads` (engine.py lines 205–216):
the spread `{**a, ...}` keeps the model's judgment fields and then overwrites
the factual fields from the original thread record. -/
structure Signal where
  thread_id : Option String
  relevance_score : Option Int
  signal_type : Option String
  insight : Option String
  competing_products : Option (List String)
  unmet_needs : Option (List String)
  key_quotes : Option (List String)
  title : String
  url : String
  subreddit : String
  score : Int
  num_comments : Int
  source_query : String
deriving Repr, DecidableEq

/-- `s.get("thread_id", "")`. -/
def tidOf (s : Signal) : String := s.thread_id.getD ""

/-- `s.get("signal_type", "irrelevant")` as used by `evaluate_coverage`. -/
def signalTypeOf (s : Signal) : String := s.signal_type.getD "irrelevant"

/-- `s.get("relevance_score", 0)`, the sort key used for the final thread list
and for the synthesis prompt selection. -/
def relevanceKey (s : Signal) : Int := s.relevance_score.getD 0

/- ───────────────────────── analyze_threads (merge step) ─────────────────── -/

/-- Lookup in `thread_map = {t["id"]: t for t in threads}` (engine.py
line 203): a dict comprehension keeps the *last* thread with a given id. -/
def threadMapGet (threads : List RawThread) (tid : String) : Option RawThread :=
  threads.foldl (fun acc t => if t.id = tid then some t else acc) none

/-- Merge of one analyzed entry with its original thread (engine.py lines
205–216): `{**a, "title": original.get("title", ""), "url": ..., "subreddit":
..., "score": original.get("score", 0), "num_comments": ..., "source_query":
query}` — the explicit keys after `**a` always win, so the factual fields come
from the original record (or the `.get` defaults when no thread matches),
never from the model. -/
def mergeEntry (threads : List RawThread) (query : String) (a : AnalyzedEntry) : Signal :=
  let tid := a.thread_id.getD ""
  let original := threadMapGet threads tid
  { thread_id := a.thread_id
    relevance_score := a.relevance_score
    signal_type := a.signal_type
    insight := a.insight
    competing_products := a.competing_products
    unmet_needs := a.unmet_needs
    key_quotes := a.key_quotes
    title := (original.map RawThread.title).getD ""
    url := (original.map RawThread.url).getD ""
    subreddit := (original.map RawThread.subreddit).getD ""
    score := (original.map RawThread.score).getD 0
    num_comments := (original.map RawThread.num_comments).getD 0
    source_query := query }

/-- `analyze_threads` (engine.py lines 158–219), from the point where the
model's answer has been normalized.  `modelOut = none` models a non-list
normalizer result (the `isinstance(analyzed, list)` guard returns `[]`);
`some analyzed` is the parsed list.  The empty-input short-circuit
(`if not threads: return []`) happens before the model is even called. -/
def analyze_threads (modelOut : Option (List AnalyzedEntry)) (query : String)
    (intent : String) (threads : List RawThread) : List Signal :=
  if threads.isEmpty then []
  else
    match modelOut with
    | none => []
    | some analyzed => analyzed.map (mergeEntry threads query)

/- ───────────────────────── evaluate_coverage ────────────────────────────── -/

/-- Counts of the four meaningful signal categories (engine.py lines 230–235),
in the dict's insertion order. -/
structure Counts where
  pain_point : Nat
  competition : Nat
  demand : Nat
  skepticism : Nat
deriving Repr, DecidableEq

/-- `if st in counts: counts[st] += 1` — unrecognized and `"irrelevant"` types
are not counted. -/
def bumpCounts (c : Counts) (st : String) : Counts :=
  if st = "pain_point" then { c with pain_point := c.pain_point + 1 }
  else if st = "competition" then { c with competition := c.competition + 1 }
  else if st = "demand" then { c with demand := c.demand + 1 }
  else if st = "skepticism" then { c with skepticism := c.skepticism + 1 }
  else c

/-- Add to the competitor set: Python `set.add`, modelled with first-insertion
order (no statement below depends on the order of the resulting list). -/
def setAdd (l : List String) (x : String) : List String :=
  if x ∈ l then l else l ++ [x]

/-- Gap entry text for one category (engine.py lines 246–249). -/
def gapPart (name : String) (count : Nat) : List String :=
  if count < MIN_SIGNALS_PER_TYPE then
    [name ++ " (" ++ toString count ++ " found, need " ++ toString MIN_SIGNALS_PER_TYPE ++ ")"]
  else []

/-- Gap list in `counts.items()` order. -/
def gapsOf (c : Counts) : List String :=
  gapPart "pain_point" c.pain_point ++ gapPart "competition" c.competition ++
    gapPart "demand" c.demand ++ gapPart "skepticism" c.skepticism

/-- Coverage report (engine.py lines 253–258). -/
structure Coverage where
  counts : Counts
  competitors : List String
  gaps : List String
  has_gaps : Bool
deriving Repr, DecidableEq

/-- One step of the counting loop of `evaluate_coverage` (engine.py lines
238–243): bump the matching category and union the `competing_products`. -/
def coverageStep (acc : Counts × List String) (s : Signal) : Counts × List String :=
  (bumpCounts acc.1 (signalTypeOf s), (s.competing_products.getD []).foldl setAdd acc.2)

/-- `evaluate_coverage` (engine.py lines 225–258). -/
def evaluate_coverage (all_signals : List Signal) : Coverage :=
  let cc := all_signals.foldl coverageStep (⟨0, 0, 0, 0⟩, [])
  let gaps := gapsOf cc.1
  { counts := cc.1, competitors := cc.2, gaps := gaps, has_gaps := !gaps.isEmpty }

/- ───────────────────────── dedup and final sort ─────────────────────────── -/

/-- Deduplication loop of the orchestrator (engine.py lines 432–440): keep a
signal iff its `thread_id` is truthy (non-empty) and unseen; first occurrence
wins, order preserved. -/
def dedupGo (seen : List String) : List Signal → List Signal
  | [] => []
  | s :: rest =>
    let tid := tidOf s
    if tid ≠ "" ∧ tid ∉ seen then s :: dedupGo (tid :: seen) rest
    else dedupGo seen rest

/-- `unique_signals` computed after the loop exits. -/
def dedupSignals (l : List Signal) : List Signal := dedupGo [] l

/-- The descending-relevance order used by `sorted(..., key=lambda s:
s.get("relevance_score", 0), reverse=True)`. -/
def relevanceDesc (a b : Signal) : Prop := relevanceKey b ≤ relevanceKey a

instance : DecidableRel relevanceDesc := fun a b =>
  inferInstanceAs (Decidable (relevanceKey b ≤ relevanceKey a))

instance : IsTotal Signal relevanceDesc :=
  ⟨fun a b => le_total (relevanceKey b) (relevanceKey a)⟩

instance : IsTrans Signal relevanceDesc :=
  ⟨fun _ _ _ h1 h2 => le_trans h2 h1⟩

/-- Python's `sorted` is a stable sort; with `reverse=True` and an integer key
it is the stable descending sort by that key.  `List.insertionSort` with
`relevanceDesc` is stable with the same tie-breaking (earlier element kept
first), so the two agree on every input. -/
def sortSignals (l : List Signal) : List Signal := List.insertionSort relevanceDesc l

/- ───────────────────────── Orchestrator: oracles and loop ───────────────── -/

/-- Transport-level failure of the text-generation collaborator
(`openai` exceptions escaping `call_openai`; engine.py has no try/except
around it, so they propagate). -/
inductive EngineError where
  | authError : EngineError
  | quotaError : EngineError
  | transportError : EngineError
deriving Repr, DecidableEq

/-- One query dict produced by the generator/refiner.  Fields are optional
because the loop reads them with `q.get("query", "")` and
`q.get("intent", "demand")`. -/
structure SearchQuery where
  query : Option String := none
  intent : Option String := none
  subreddits : List String := []
deriving Repr, DecidableEq

/-- Normalized synthesis-model output as seen after `safe_parse_json` in
`synthesize_report`: either a dict (with optional `report` / `scores` keys) or
a non-dict value, rendered by `str(parsed)`. -/
inductive SynthParsed where
  | dict (report : Option String) (scores : Option (List (String × Int))) : SynthParsed
  | nonDict (rendered : String) : SynthParsed
deriving Repr, DecidableEq

/-- Return value of `synthesize_report` as consumed by the orchestrator
(`report_data.get("report", "")`, `report_data.get("scores", {})`). -/
structure ReportData where
  report : Option String
  scores : Option (List (String × Int))
deriving Repr, DecidableEq

/-- The dict/non-dict shape handling at the end of `synthesize_report`
(engine.py lines 328–330): a dict is returned as-is, anything else becomes
`{"report": str(parsed), "scores": {}}`. -/
def reportDataOf (parsed : SynthParsed) : ReportData :=
  match parsed with
  | .dict r s => ⟨r, s⟩
  | .nonDict rendered => ⟨some rendered, some []⟩

/-- External collaborators of the engine, abstracted per call site.  Each
text-generation oracle returns the post-normalizer value of its stage, or a
transport error.  The `Nat` argument is the iteration number, which lets a
behaviour differ between calls of the same stage in different rounds.

* `gen` — the Query Generator result (`generate_queries`, called once, in
  iteration 1); a non-list normalizer result is already `ok []` there.
* `refine` — `refine_queries` given the coverage snapshot and
  `len(all_signals)`.
* `search` — the Reddit search for one query dict (the Reddit client returns
  `[]` rather than raising on failures, per `reddit_client.py`).
* `fetchComments` — `fetch_thread_comments` for one thread URL.
* `analyze` — the analysis model output for (query, intent, threads);
  `ok none` models a non-list normalizer result.
* `synth` — the synthesis model output for the selected top signals. -/
structure Oracles where
  gen : Except EngineError (List SearchQuery)
  refine : Nat → Coverage → Nat → Except EngineError (List SearchQuery)
  search : Nat → SearchQuery → List RawThread
  fetchComments : String → List String
  analyze : Nat → String → String → List RawThread →
    Except EngineError (Option (List AnalyzedEntry))
  synth : List Signal → Except EngineError SynthParsed

/-- Comment enrichment in `search_all_queries` (engine.py lines 140–147): only
threads clearing the popularity bar get comments fetched. -/
def enrichThread (fetch : String → List String) (t : RawThread) : RawThread :=
  if 5 ≤ t.num_comments ∧ 10 ≤ t.score then { t with top_comments := fetch t.url }
  else { t with top_comments := [] }

/-- Python dict insert: overwrite in place if the key exists, else append. -/
def pyDictInsert {α : Type} (d : List (String × α)) (k : String) (v : α) :
    List (String × α) :=
  if d.any (fun kv => kv.1 = k) then d.map (fun kv => if kv.1 = k then (k, v) else kv)
  else d ++ [(k, v)]

/-- `search_all_queries` (engine.py lines 119–152): run every query with a
non-empty query string, enrich its threads, and key the results by the query
string (later duplicates of the same string overwrite earlier ones, as in the
Python dict). -/
def search_all_queries (searchFn : SearchQuery → List RawThread)
    (fetch : String → List String) (queries : List SearchQuery) :
    List (String × List RawThread) :=
  queries.foldl
    (fun results q =>
      let query_str := q.query.getD ""
      if query_str = "" then results
      else pyDictInsert results query_str ((searchFn q).map (enrichThread fetch)))
    []

/-- Loop state of the orchestrator: the accumulated signal collection, the
ordered queries-used log, and the iteration counter. -/
structure LoopState where
  all_signals : List Signal
  all_queries_used : List String
  iteration : Nat
deriving Repr, DecidableEq

/-- Trace of the control path taken by one run, standing in for the status
callbacks of `engine.py` (which are advisory and carry the same stage tags). -/
inductive Event where
  | generated (numQueries : Nat) : Event
  | refined (iteration : Nat) (numQueries : Nat) : Event
  | coverageComplete (iteration : Nat) : Event
  | emptyQueries (iteration : Nat) : Event
  | searched (iteration : Nat) (numQueries : Nat) : Event
  | analyzed (iteration : Nat) (query : String) : Event
  | gapFreeExit (iteration : Nat) : Event
  | deduplicated : Event
  | synthesized : Event
deriving Repr, DecidableEq

/-- Step 1 of an iteration (engine.py lines 374–389): iteration 1 invokes the
Query Generator; later iterations first recompute coverage and either break
(`none`) on full coverage or invoke the Query Refiner. -/
def queriesStep (o : Oracles) (iter : Nat) (st : LoopState) :
    Except EngineError (Option (List SearchQuery) × List Event) :=
  if iter = 1 then
    match o.gen with
    | .error e => .error e
    | .ok qs => .ok (some qs, [Event.generated qs.length])
  else
    let cov := evaluate_coverage st.all_signals
    if cov.has_gaps then
      match o.refine iter cov st.all_signals.length with
      | .error e => .error e
      | .ok qs => .ok (some qs, [Event.refined iter qs.length])
    else .ok (none, [Event.coverageComplete iter])

/-- Step 3 of an iteration (engine.py lines 400–415): for each query of the
round, look its threads up in the search-result dict; skip thread-less
queries, otherwise log the query string, analyze, and extend the signal
collection. -/
def analyzeStep (o : Oracles) (iter : Nat) (dict : List (String × List RawThread)) :
    List SearchQuery → LoopState → Except EngineError (LoopState × List Event)
  | [], st => .ok (st, [])
  | q :: rest, st =>
    let query_str := q.query.getD ""
    let intent := q.intent.getD "demand"
    let threads := (pyDictGet dict query_str).getD []
    if threads.isEmpty then analyzeStep o iter dict rest st
    else
      match o.analyze iter query_str intent threads with
      | .error e => .error e
      | .ok modelOut =>
        let st1 : LoopState :=
          { st with
            all_queries_used := st.all_queries_used ++ [query_str]
            all_signals := st.all_signals ++ analyze_threads modelOut query_str intent threads }
        match analyzeStep o iter dict rest st1 with
        | .error e => .error e
        | .ok (st2, evs) => .ok (st2, Event.analyzed iter query_str :: evs)

/-- The iteration loop of `run_reddit_signal_engine` (engine.py lines
370–430), with the remaining iteration budget (`MAX_ITERATIONS - iteration`)
as explicit fuel.  Exits: fuel exhausted (`while` condition false), coverage
complete before refining, no queries produced, or no gaps after evaluation. -/
def engineLoop (o : Oracles) : Nat → LoopState → Except EngineError (LoopState × List Event)
  | 0, st => .ok (st, [])
  | fuel + 1, st₀ =>
    let iter := st₀.iteration + 1
    let st1 : LoopState := { st₀ with iteration := iter }
    match queriesStep o iter st1 with
    | .error e => .error e
    | .ok (none, evs) => .ok (st1, evs)
    | .ok (some queries, evs) =>
      if queries.isEmpty then .ok (st1, evs ++ [Event.emptyQueries iter])
      else
        let dict := search_all_queries (o.search iter) o.fetchComments queries
        match analyzeStep o iter dict queries st1 with
        | .error e => .error e
        | .ok (st2, aevs) =>
          let evs2 := evs ++ [Event.searched iter queries.length] ++ aevs
          let cov := evaluate_coverage st2.all_signals
          if cov.has_gaps then
            match engineLoop o fuel st2 with
            | .error e => .error e
            | .ok (st3, evs3) => .ok (st3, evs2 ++ evs3)
          else .ok (st2, evs2 ++ [Event.gapFreeExit iter])

/-- The thread selection of `synthesize_report` (engine.py lines 312–316):
top 30 by relevance, descending. -/
def synthTop (all_signals : List Signal) : List Signal :=
  (sortSignals all_signals).take 30

/-- `synthesize_report` (engine.py lines 302–330) given the synthesis oracle. -/
def synthesize_report (synthFn : List Signal → Except EngineError SynthParsed)
    (all_signals : List Signal) : Except EngineError ReportData :=
  match synthFn (synthTop all_signals) with
  | .error e => .error e
  | .ok parsed => .ok (reportDataOf parsed)

/-- Final result dict of `run_reddit_signal_engine` (engine.py lines 453–465).
`elapsed_seconds` is wall-clock time and is not modelled. -/
structure EngineResult where
  report : String
  scores : List (String × Int)
  threads : List Signal
  iterations : Nat
  queries_used : List String
  coverage : Coverage
deriving Repr, DecidableEq

/-- Output of one run together with specification-level ghosts: `accum` is the
pre-dedup accumulated signal collection at loop exit, `synthInput` the list
actually handed to the synthesis model, `trace` the control path. -/
structure RunOut where
  result : EngineResult
  accum : List Signal
  synthInput : List Signal
  trace : List Event
deriving Repr, DecidableEq

/-- `run_reddit_signal_engine` (engine.py lines 336–465): run the iteration
loop from the empty state, deduplicate by `thread_id`, synthesize on the
deduplicated collection, recompute final coverage on it, and assemble the
result with the threads sorted by descending relevance. -/
def run_engine_aux (o : Oracles) : Except EngineError RunOut :=
  match engineLoop o MAX_ITERATIONS ⟨[], [], 0⟩ with
  | .error e => .error e
  | .ok (st, evs) =>
    let unique_signals := dedupSignals st.all_signals
    match synthesize_report o.synth unique_signals with
    | .error e => .error e
    | .ok rd =>
      let final_coverage := evaluate_coverage unique_signals
      .ok
        { result :=
            { report := rd.report.getD ""
              scores := rd.scores.getD []
              threads := sortSignals unique_signals
              iterations := st.iteration
              queries_used := st.all_queries_used
              coverage := final_coverage }
          accum := st.all_signals
          synthInput := synthTop unique_signals
          trace := evs ++ [Event.deduplicated, Event.synthesized] }

/-- The caller-facing entry point: the returned dict alone. -/
def run_reddit_signal_engine (o : Oracles) : Except EngineError EngineResult :=
  (run_engine_aux o).map RunOut.result

/- ───────────────────────── Pure (non-raising) collaborator runs ─────────── -/

/-- Collaborator behaviours in which every text-generation call returns (the
complement of the fatal-transport case): the shape every claim about a
completed run quantifies over. -/
structure PureOracles where
  gen : List SearchQuery
  refine : Nat → Coverage → Nat → List SearchQuery
  search : Nat → SearchQuery → List RawThread
  fetchComments : String → List String
  analyze : Nat → String → String → List RawThread → Option (List AnalyzedEntry)
  synth : List Signal → SynthParsed

/-- View a non-raising behaviour as an `Oracles` value. -/
def PureOracles.toOracles (p : PureOracles) : Oracles :=
  { gen := .ok p.gen
    refine := fun i c n => .ok (p.refine i c n)
    search := p.search
    fetchComments := p.fetchComments
    analyze := fun i q t th => .ok (p.analyze i q t th)
    synth := fun sigs => .ok (p.synth sigs) }

@[simp] theorem toOracles_gen (p : PureOracles) : p.toOracles.gen = .ok p.gen := rfl

@[simp] theorem toOracles_refine (p : PureOracles) (i : Nat) (c : Coverage) (n : Nat) :
    p.toOracles.refine i c n = .ok (p.refine i c n) := rfl

@[simp] theorem toOracles_search (p : PureOracles) : p.toOracles.search = p.search := rfl

@[simp] theorem toOracles_fetchComments (p : PureOracles) :
    p.toOracles.fetchComments = p.fetchComments := rfl

@[simp] theorem toOracles_analyze (p : PureOracles) (i : Nat) (q t : String)
    (th : List RawThread) : p.toOracles.analyze i q t th = .ok (p.analyze i q t th) := rfl

@[simp] theorem toOracles_synth (p : PureOracles) (sigs : List Signal) :
    p.toOracles.synth sigs = .ok (p.synth sigs) := rfl

/-- Pure counterpart of `queriesStep`. -/
def queriesStepP (p : PureOracles) (iter : Nat) (st : LoopState) :
    Option (List SearchQuery) × List Event :=
  if iter = 1 then (some p.gen, [Event.generated p.gen.length])
  else
    let cov := evaluate_coverage st.all_signals
    if cov.has_gaps then
      let qs := p.refine iter cov st.all_signals.length
      (some qs, [Event.refined iter qs.length])
    else (none, [Event.coverageComplete iter])

/-- Pure counterpart of `analyzeStep`. -/
def analyzeStepP (p : PureOracles) (iter : Nat) (dict : List (String × List RawThread)) :
    List SearchQuery → LoopState → LoopState × List Event
  | [], st => (st, [])
  | q :: rest, st =>
    let query_str := q.query.getD ""
    let intent := q.intent.getD "demand"
    let threads := (pyDictGet dict query_str).getD []
    if threads.isEmpty then analyzeStepP p iter dict rest st
    else
      let modelOut := p.analyze iter query_str intent threads
      let st1 : LoopState :=
        { st with
          all_queries_used := st.all_queries_used ++ [query_str]
          all_signals := st.all_signals ++ analyze_threads modelOut query_str intent threads }
      let out := analyzeStepP p iter dict rest st1
      (out.1, Event.analyzed iter query_str :: out.2)

/-- Pure counterpart of `engineLoop`. -/
def engineLoopP (p : PureOracles) : Nat → LoopState → LoopState × List Event
  | 0, st => (st, [])
  | fuel + 1, st₀ =>
    let iter := st₀.iteration + 1
    let st1 : LoopState := { st₀ with iteration := iter }
    match queriesStepP p iter st1 with
    | (none, evs) => (st1, evs)
    | (some queries, evs) =>
      if queries.isEmpty then (st1, evs ++ [Event.emptyQueries iter])
      else
        let dict := search_all_queries (p.search iter) p.fetchComments queries
        let out := analyzeStepP p iter dict queries st1
        let evs2 := evs ++ [Event.searched iter queries.length] ++ out.2
        let cov := evaluate_coverage out.1.all_signals
        if cov.has_gaps then
          let out3 := engineLoopP p fuel out.1
          (out3.1, evs2 ++ out3.2)
        else (out.1, evs2 ++ [Event.gapFreeExit iter])

/-- Pure counterpart of `run_engine_aux`. -/
def runEngineP (p : PureOracles) : RunOut :=
  let out := engineLoopP p MAX_ITERATIONS ⟨[], [], 0⟩
  let st := out.1
  let evs := out.2
  let unique_signals := dedupSignals st.all_signals
  let rd := reportDataOf (p.synth (synthTop unique_signals))
  let final_coverage := evaluate_coverage unique_signals
  { result :=
      { report := rd.report.getD ""
        scores := rd.scores.getD []
        threads := sortSignals unique_signals
        iterations := st.iteration
        queries_used := st.all_queries_used
        coverage := final_coverage }
    accum := st.all_signals
    synthInput := synthTop unique_signals
    trace := evs ++ [Event.deduplicated, Event.synthesized] }

/- Bridge lemmas: with non-raising collaborators the `Except`-valued engine is
total and computes the pure run. -/

theorem queriesStep_toOracles (p : PureOracles) (iter : Nat) (st : LoopState) :
    queriesStep p.toOracles iter st = .ok (queriesStepP p iter st) := by
  unfold queriesStep queriesStepP
  by_cases h1 : iter = 1 <;> simp [h1]
  by_cases h2 : (evaluate_coverage st.all_signals).has_gaps <;> simp [h2]

theorem analyzeStep_toOracles (p : PureOracles) (iter : Nat)
    (dict : List (String × List RawThread)) (qs : List SearchQuery) (st : LoopState) :
    analyzeStep p.toOracles iter dict qs st = .ok (analyzeStepP p iter dict qs st) := by
  induction qs generalizing st with
  | nil => rfl
  | cons q rest ih =>
    unfold analyzeStep analyzeStepP
    by_cases h : ((pyDictGet dict (q.query.getD "")).getD []).isEmpty <;>
      simp [h, ih]

theorem engineLoop_toOracles (p : PureOracles) (fuel : Nat) (st : LoopState) :
    engineLoop p.toOracles fuel st = .ok (engineLoopP p fuel st) := by
  induction fuel generalizing st with
  | zero => rfl
  | succ n ih =>
    unfold engineLoop engineLoopP
    rcases hq : queriesStepP p (st.iteration + 1)
        ⟨st.all_signals, st.all_queries_used, st.iteration + 1⟩ with ⟨q?, evs⟩
    cases q? with
    | none => simp [queriesStep_toOracles, hq]
    | some queries =>
      by_cases hemp : queries.isEmpty
      · simp [queriesStep_toOracles, hq, hemp]
      · rcases ha : analyzeStepP p (st.iteration + 1)
            (search_all_queries (p.search (st.iteration + 1)) p.fetchComments queries) queries
            ⟨st.all_signals, st.all_queries_used, st.iteration + 1⟩ with ⟨st2, aevs⟩
        rcases hrec : engineLoopP p n st2 with ⟨st3, evs3⟩
        by_cases hg : (evaluate_coverage st2.all_signals).has_gaps <;>
          simp [queriesStep_toOracles, analyzeStep_toOracles, ih, hq, ha, hrec, hemp, hg]

theorem synthesize_report_toOracles (p : PureOracles) (sigs : List Signal) :
    synthesize_report p.toOracles.synth sigs =
      .ok (reportDataOf (p.synth (synthTop sigs))) := rfl

theorem run_engine_aux_toOracles (p : PureOracles) :
    run_engine_aux p.toOracles = .ok (runEngineP p) := by
  unfold run_engine_aux runEngineP
  rw [engineLoop_toOracles]
  rfl

/- ───────────────────────── Loop invariants ──────────────────────────────── -/

theorem analyzeStepP_iteration (p : PureOracles) (iter : Nat)
    (dict : List (String × List RawThread)) (qs : List SearchQuery) (st : LoopState) :
    (analyzeStepP p iter dict qs st).1.iteration = st.iteration := by
  induction qs generalizing st with
  | nil => rfl
  | cons q rest ih =>
    unfold analyzeStepP
    by_cases h : ((pyDictGet dict (q.query.getD "")).getD []).isEmpty <;> simp [h, ih]

theorem analyzeStepP_events (p : PureOracles) (iter : Nat)
    (dict : List (String × List RawThread)) (qs : List SearchQuery) (st : LoopState) :
    ∀ e ∈ (analyzeStepP p iter dict qs st).2, ∃ q, e = Event.analyzed iter q := by
  induction qs generalizing st with
  | nil => intro e he; simp [analyzeStepP] at he
  | cons q rest ih =>
    intro e he
    unfold analyzeStepP at he
    by_cases h : ((pyDictGet dict (q.query.getD "")).getD []).isEmpty
    · simp only [h, if_pos] at he
      exact ih _ e he
    · simp only [h, Bool.false_eq_true, if_false] at he
      rcases List.mem_cons.mp he with rfl | hmem
      · exact ⟨q.query.getD "", rfl⟩
      · exact ih _ e hmem

/-- The signals after the per-query analysis loop are the signals before it
extended with outputs of `analyze_threads` on this round's model answers. -/
theorem analyzeStepP_signals (p : PureOracles) (iter : Nat)
    (dict : List (String × List RawThread)) (qs : List SearchQuery) (st : LoopState) :
    ∀ s ∈ (analyzeStepP p iter dict qs st).1.all_signals,
      s ∈ st.all_signals ∨
        ∃ q t th, s ∈ analyze_threads (p.analyze iter q t th) q t th := by
  induction qs generalizing st with
  | nil => intro s hs; exact Or.inl hs
  | cons q rest ih =>
    intro s hs
    unfold analyzeStepP at hs
    by_cases h : ((pyDictGet dict (q.query.getD "")).getD []).isEmpty
    · simp only [h, if_pos] at hs
      exact ih _ s hs
    · simp only [h, Bool.false_eq_true, if_false] at hs
      rcases ih _ s hs with hmem | hnew
      · rcases List.mem_append.mp hmem with hold | hfresh
        · exact Or.inl hold
        · exact Or.inr ⟨q.query.getD "", q.intent.getD "demand",
            (pyDictGet dict (q.query.getD "")).getD [], hfresh⟩
      · exact Or.inr hnew

theorem engineLoopP_iteration_le (p : PureOracles) (fuel : Nat) (st : LoopState) :
    (engineLoopP p fuel st).1.iteration ≤ st.iteration + fuel := by
  induction fuel generalizing st with
  | zero => simp [engineLoopP]
  | succ n ih =>
    unfold engineLoopP
    rcases hq : queriesStepP p (st.iteration + 1)
        ⟨st.all_signals, st.all_queries_used, st.iteration + 1⟩ with ⟨q?, evs⟩
    cases q? with
    | none => simp [hq]
    | some queries =>
      by_cases hemp : queries.isEmpty
      · simp [hq, hemp]
      · simp only [hq, hemp, Bool.false_eq_true, if_false]
        by_cases hg : (evaluate_coverage (analyzeStepP p (st.iteration + 1)
            (search_all_queries (p.search (st.iteration + 1)) p.fetchComments queries)
            queries ⟨st.all_signals, st.all_queries_used, st.iteration + 1⟩).1.all_signals).has_gaps
        · simp only [hg, if_pos]
          have h1 := ih (analyzeStepP p (st.iteration + 1)
            (search_all_queries (p.search (st.iteration + 1)) p.fetchComments queries)
            queries ⟨st.all_signals, st.all_queries_used, st.iteration + 1⟩).1
          have h2 := analyzeStepP_iteration p (st.iteration + 1)
            (search_all_queries (p.search (st.iteration + 1)) p.fetchComments queries)
            queries ⟨st.all_signals, st.all_queries_used, st.iteration + 1⟩
          simp only [h2] at h1
          omega
        · simp only [hg, Bool.false_eq_true, if_false]
          have h2 := analyzeStepP_iteration p (st.iteration + 1)
            (search_all_queries (p.search (st.iteration + 1)) p.fetchComments queries)
            queries ⟨st.all_signals, st.all_queries_used, st.iteration + 1⟩
          simp only [h2]
          omega


/-- The loop's trace begins with the events of its first step-1 decision. -/
theorem engineLoopP_trace_append (p : PureOracles) (fuel : Nat) (st : LoopState)
    (hf : 0 < fuel) :
    ∃ rest, (engineLoopP p fuel st).2 =
      (queriesStepP p (st.iteration + 1)
        ⟨st.all_signals, st.all_queries_used, st.iteration + 1⟩).2 ++ rest := by
  cases fuel with
  | zero => omega
  | succ n =>
    unfold engineLoopP
    rcases hq : queriesStepP p (st.iteration + 1)
        ⟨st.all_signals, st.all_queries_used, st.iteration + 1⟩ with ⟨q?, evs⟩
    cases q? with
    | none => exact ⟨[], by simp [hq]⟩
    | some queries =>
      by_cases hemp : queries.isEmpty
      · exact ⟨[Event.emptyQueries (st.iteration + 1)], by simp [hq, hemp]⟩
      · by_cases hg : (evaluate_coverage (analyzeStepP p (st.iteration + 1)
            (search_all_queries (p.search (st.iteration + 1)) p.fetchComments queries)
            queries ⟨st.all_signals, st.all_queries_used, st.iteration + 1⟩).1.all_signals).has_gaps
        · exact ⟨Event.searched (st.iteration + 1) queries.length ::
            ((analyzeStepP p (st.iteration + 1)
              (search_all_queries (p.search (st.iteration + 1)) p.fetchComments queries)
              queries ⟨st.all_signals, st.all_queries_used, st.iteration + 1⟩).2 ++
             (engineLoopP p n (analyzeStepP p (st.iteration + 1)
              (search_all_queries (p.search (st.iteration + 1)) p.fetchComments queries)
              queries ⟨st.all_signals, st.all_queries_used, st.iteration + 1⟩).1).2),
            by simp [hq, hemp, hg]⟩
        · exact ⟨Event.searched (st.iteration + 1) queries.length ::
            ((analyzeStepP p (st.iteration + 1)
              (search_all_queries (p.search (st.iteration + 1)) p.fetchComments queries)
              queries ⟨st.all_signals, st.all_queries_used, st.iteration + 1⟩).2 ++
             [Event.gapFreeExit (st.iteration + 1)]),
            by simp [hq, hemp, hg]⟩

/-- With a positive iteration budget and a fresh state, the first control event
of the loop is always a Query Generator invocation. -/
theorem engineLoopP_trace_head (p : PureOracles) (fuel : Nat) (st : LoopState)
    (h0 : st.iteration = 0) (hf : 0 < fuel) :
    ∃ rest, (engineLoopP p fuel st).2 = Event.generated p.gen.length :: rest := by
  rcases engineLoopP_trace_append p fuel st hf with ⟨rest, hrest⟩
  rw [hrest]
  have hq : (queriesStepP p (st.iteration + 1)
      ⟨st.all_signals, st.all_queries_used, st.iteration + 1⟩).2 =
        [Event.generated p.gen.length] := by
    rw [queriesStepP]
    simp [h0]
  rw [hq]
  exact ⟨rest, rfl⟩

/-- Refinement events carry the iteration number they happened in; the loop
only refines in iterations strictly after the one it was entered in, and
never in iteration 1. -/
theorem engineLoopP_refined_ge (p : PureOracles) (fuel : Nat) (st : LoopState) :
    ∀ i n, Event.refined i n ∈ (engineLoopP p fuel st).2 →
      st.iteration + 1 ≤ i ∧ 2 ≤ i := by
  induction fuel generalizing st with
  | zero => intro i n h; simp [engineLoopP] at h
  | succ m ih =>
    intro i n h
    unfold engineLoopP at h
    rcases hq : queriesStepP p (st.iteration + 1)
        ⟨st.all_signals, st.all_queries_used, st.iteration + 1⟩ with ⟨q?, evs⟩
    have hevs : ∀ j k, Event.refined j k ∈ evs → j = st.iteration + 1 ∧ st.iteration ≠ 0 := by
      intro j k hjk
      rw [queriesStepP] at hq
      by_cases h1 : st.iteration + 1 = 1
      · simp [h1] at hq
        rcases hq with ⟨_, rfl⟩
        simp at hjk
      · simp only [h1, if_false] at hq
        by_cases h2 : (evaluate_coverage st.all_signals).has_gaps
        · simp [h2] at hq
          rcases hq with ⟨_, rfl⟩
          simp at hjk
          exact ⟨hjk.1, by omega⟩
        · simp [h2] at hq
          rcases hq with ⟨_, rfl⟩
          simp at hjk
    cases q? with
    | none =>
      simp only [hq] at h
      rcases hevs i n h with ⟨rfl, hne⟩
      omega
    | some queries =>
      simp only [hq] at h
      by_cases hemp : queries.isEmpty
      · simp only [hemp, if_pos] at h
        rcases List.mem_append.mp h with hin | hin
        · rcases hevs i n hin with ⟨rfl, hne⟩
          omega
        · simp at hin
      · simp only [hemp, Bool.false_eq_true, if_false] at h
        by_cases hg : (evaluate_coverage (analyzeStepP p (st.iteration + 1)
            (search_all_queries (p.search (st.iteration + 1)) p.fetchComments queries)
            queries ⟨st.all_signals, st.all_queries_used, st.iteration + 1⟩).1.all_signals).has_gaps
        · simp only [hg, if_pos] at h
          rcases List.mem_append.mp h with hin | hin
          · rcases List.mem_append.mp hin with hin2 | hin2
            · rcases List.mem_append.mp hin2 with hin3 | hin3
              · rcases hevs i n hin3 with ⟨rfl, hne⟩
                omega
              · simp at hin3
            · rcases analyzeStepP_events p _ _ _ _ _ hin2 with ⟨q, hqeq⟩
              simp at hqeq
          · have := ih (analyzeStepP p (st.iteration + 1)
              (search_all_queries (p.search (st.iteration + 1)) p.fetchComments queries)
              queries ⟨st.all_signals, st.all_queries_used, st.iteration + 1⟩).1 i n hin
            simp only [analyzeStepP_iteration] at this
            exact ⟨by omega, this.2⟩
        · simp only [hg, Bool.false_eq_true, if_false] at h
          rcases List.mem_append.mp h with hin | hin
          · rcases List.mem_append.mp hin with hin2 | hin2
            · rcases List.mem_append.mp hin2 with hin3 | hin3
              · rcases hevs i n hin3 with ⟨rfl, hne⟩
                omega
              · simp at hin3
            · rcases analyzeStepP_events p _ _ _ _ _ hin2 with ⟨q, hqeq⟩
              simp at hqeq
          · simp at hin

/-- Every signal accumulated by the loop is either carried over from the
starting state or produced by `analyze_threads` on some model answer. -/
theorem engineLoopP_signals (p : PureOracles) (fuel : Nat) (st : LoopState) :
    ∀ s ∈ (engineLoopP p fuel st).1.all_signals,
      s ∈ st.all_signals ∨
        ∃ iter q t th, s ∈ analyze_threads (p.analyze iter q t th) q t th := by
  induction fuel generalizing st with
  | zero => intro s hs; exact Or.inl hs
  | succ n ih =>
    intro s hs
    unfold engineLoopP at hs
    rcases hq : queriesStepP p (st.iteration + 1)
        ⟨st.all_signals, st.all_queries_used, st.iteration + 1⟩ with ⟨q?, evs⟩
    cases q? with
    | none =>
      simp only [hq] at hs
      exact Or.inl hs
    | some queries =>
      simp only [hq] at hs
      by_cases hemp : queries.isEmpty
      · simp only [hemp, if_pos] at hs
        exact Or.inl hs
      · simp only [hemp, Bool.false_eq_true, if_false] at hs
        by_cases hg : (evaluate_coverage (analyzeStepP p (st.iteration + 1)
            (search_all_queries (p.search (st.iteration + 1)) p.fetchComments queries)
            queries ⟨st.all_signals, st.all_queries_used, st.iteration + 1⟩).1.all_signals).has_gaps
        · simp only [hg, if_pos] at hs
          rcases ih _ s hs with hmem | hnew
          · rcases analyzeStepP_signals p _ _ _ _ s hmem with hold | ⟨q, t, th, hfresh⟩
            · exact Or.inl hold
            · exact Or.inr ⟨st.iteration + 1, q, t, th, hfresh⟩
          · exact Or.inr hnew
        · simp only [hg, Bool.false_eq_true, if_false] at hs
          rcases analyzeStepP_signals p _ _ _ _ s hs with hold | ⟨q, t, th, hfresh⟩
          · exact Or.inl hold
          · exact Or.inr ⟨st.iteration + 1, q, t, th, hfresh⟩

/- ───────────────────────── Deduplication lemmas ─────────────────────────── -/

theorem dedupGo_sublist (seen : List String) (l : List Signal) :
    (dedupGo seen l).Sublist l := by
  induction l generalizing seen with
  | nil => simp [dedupGo]
  | cons s rest ih =>
    simp only [dedupGo]
    by_cases h : tidOf s ≠ "" ∧ tidOf s ∉ seen
    · rw [if_pos h]
      exact (ih (tidOf s :: seen)).cons₂ s
    · rw [if_neg h]
      exact (ih seen).cons s

/-- Every survivor of the dedup pass has a truthy thread id, that id was not
seen before the pass started, and the survivor is the *first* element of the
input carrying that id. -/
theorem dedupGo_first_occurrence (seen : List String) (l : List Signal) :
    ∀ s ∈ dedupGo seen l,
      tidOf s ∉ seen ∧ tidOf s ≠ "" ∧
        l.find? (fun t => tidOf t = tidOf s) = some s := by
  induction l generalizing seen with
  | nil => intro s hs; simp [dedupGo] at hs
  | cons x rest ih =>
    intro s hs
    simp only [dedupGo] at hs
    by_cases h : tidOf x ≠ "" ∧ tidOf x ∉ seen
    · rw [if_pos h] at hs
      rcases List.mem_cons.mp hs with rfl | hmem
      · refine ⟨h.2, h.1, ?_⟩
        rw [List.find?_cons_of_pos]
        simp
      · rcases ih (tidOf x :: seen) s hmem with ⟨hnotseen, hne, hfind⟩
        have hxne : tidOf s ≠ tidOf x := by
          intro heq
          exact hnotseen (heq ▸ List.mem_cons_self (tidOf x) seen)
        refine ⟨fun hc => hnotseen (List.mem_cons_of_mem _ hc), hne, ?_⟩
        rw [List.find?_cons_of_neg]
        · exact hfind
        · simp [hxne.symm]
    · rw [if_neg h] at hs
      rcases ih seen s hs with ⟨hnotseen, hne, hfind⟩
      have hxne : tidOf x ≠ tidOf s := by
        rcases not_and_or.mp h with hx | hx
        · intro heq
          rw [not_not] at hx
          exact hne (heq ▸ hx)
        · intro heq
          rw [not_not] at hx
          exact hnotseen (heq ▸ hx)
      refine ⟨hnotseen, hne, ?_⟩
      rw [List.find?_cons_of_neg]
      · exact hfind
      · simp [hxne]

/-- The dedup output never carries two signals with the same thread id. -/
theorem dedupGo_pairwise (seen : List String) (l : List Signal) :
    (dedupGo seen l).Pairwise (fun a b => tidOf a ≠ tidOf b) := by
  induction l generalizing seen with
  | nil => simp [dedupGo]
  | cons x rest ih =>
    simp only [dedupGo]
    by_cases h : tidOf x ≠ "" ∧ tidOf x ∉ seen
    · rw [if_pos h]
      refine List.Pairwise.cons ?_ (ih (tidOf x :: seen))
      intro b hb
      have := (dedupGo_first_occurrence (tidOf x :: seen) rest b hb).1
      intro heq
      exact this (heq ▸ List.mem_cons_self (tidOf x) seen)
    · rw [if_neg h]
      exact ih seen

/- ───────────────────────── Sorting lemmas ───────────────────────────────── -/

theorem sortSignals_perm (l : List Signal) : (sortSignals l).Perm l :=
  List.perm_insertionSort relevanceDesc l

theorem sortSignals_sorted (l : List Signal) : (sortSignals l).Sorted relevanceDesc :=
  List.sorted_insertionSort relevanceDesc l

theorem mem_sortSignals {s : Signal} {l : List Signal} :
    s ∈ sortSignals l ↔ s ∈ l :=
  (sortSignals_perm l).mem_iff

/- ───────────────────────── Coverage lemmas ──────────────────────────────── -/

/-- The counts component of the coverage fold ignores the competitor
component. -/
theorem coverage_fold_fst (l : List Signal) (init : Counts × List String) :
    (l.foldl coverageStep init).1 =
      l.foldl (fun c s => bumpCounts c (signalTypeOf s)) init.1 := by
  induction l generalizing init with
  | nil => rfl
  | cons s rest ih => simp [coverageStep, ih]

/-- Appending one signal to the collection bumps exactly its category. -/
theorem evaluate_coverage_append_counts (l : List Signal) (t : Signal) :
    (evaluate_coverage (l ++ [t])).counts =
      bumpCounts (evaluate_coverage l).counts (signalTypeOf t) := by
  unfold evaluate_coverage
  simp only [coverage_fold_fst, List.foldl_append, List.foldl_cons, List.foldl_nil,
    coverageStep]

/-- Coverage is computed from `signal_type` and `competing_products` only; in
particular it does not look at `thread_id`, so signals with a missing or empty
thread id are counted like any other. -/
theorem evaluate_coverage_ignores_thread_id (l : List Signal) (f : Signal → Option String) :
    evaluate_coverage (l.map fun s => { s with thread_id := f s }) =
      evaluate_coverage l := by
  unfold evaluate_coverage
  have hfold : ∀ init : Counts × List String,
      (l.map fun s => { s with thread_id := f s }).foldl coverageStep init =
        l.foldl coverageStep init := by
    induction l with
    | nil => intro init; rfl
    | cons s rest ih =>
      intro init
      simp only [List.map_cons, List.foldl_cons, ih]
      rfl
  rw [hfold]

/-- The four meaningful signal categories. -/
def MEANINGFUL_TYPES : List String := ["pain_point", "competition", "demand", "skepticism"]

/-- Category count lookup by name. -/
def categoryCount (c : Counts) (name : String) : Nat :=
  if name = "pain_point" then c.pain_point
  else if name = "competition" then c.competition
  else if name = "demand" then c.demand
  else if name = "skepticism" then c.skepticism
  else 0

theorem gapPart_length_mono (name : String) (n : Nat) :
    (gapPart name (n + 1)).length ≤ (gapPart name n).length := by
  unfold gapPart
  by_cases h : n + 1 < MIN_SIGNALS_PER_TYPE
  · rw [if_pos h, if_pos (by omega)]
    simp
  · rw [if_neg h]
    simp

/- ───────────────────────── analyze_threads lemmas ───────────────────────── -/

theorem mergeEntry_relevance (threads : List RawThread) (query : String)
    (a : AnalyzedEntry) : (mergeEntry threads query a).relevance_score = a.relevance_score :=
  rfl

theorem analyze_threads_mem {mo : List AnalyzedEntry} {q i : String}
    {th : List RawThread} {s : Signal} (hs : s ∈ analyze_threads (some mo) q i th) :
    ∃ a ∈ mo, s = mergeEntry th q a := by
  unfold analyze_threads at hs
  by_cases hemp : th.isEmpty
  · rw [if_pos hemp] at hs
    simp at hs
  · rw [if_neg hemp] at hs
    rcases List.mem_map.mp hs with ⟨a, ha, rfl⟩
    exact ⟨a, ha, rfl⟩

/-- Version over the optional model output (the `isinstance` guard). -/
theorem analyze_threads_mem_opt {mo : Option (List AnalyzedEntry)} {q i : String}
    {th : List RawThread} {s : Signal} (hs : s ∈ analyze_threads mo q i th) :
    ∃ l, mo = some l ∧ ∃ a ∈ l, s = mergeEntry th q a := by
  cases mo with
  | none =>
    unfold analyze_threads at hs
    by_cases hemp : th.isEmpty
    · rw [if_pos hemp] at hs; simp at hs
    · rw [if_neg hemp] at hs; simp at hs
  | some l => exact ⟨l, rfl, analyze_threads_mem hs⟩

/-- The produced relevance scores are exactly the model-given ones (no
filtering, no defaulting). -/
theorem analyze_threads_scores (mo : List AnalyzedEntry) (q i : String)
    (th : List RawThread) :
    (analyze_threads (some mo) q i th).map Signal.relevance_score =
      if th.isEmpty then [] else mo.map AnalyzedEntry.relevance_score := by
  unfold analyze_threads
  by_cases hemp : th.isEmpty
  · rw [if_pos hemp, if_pos hemp]
    rfl
  · rw [if_neg hemp, if_neg hemp]
    simp [mergeEntry_relevance, Function.comp]

/- ───────────────────────── Concrete sample data ─────────────────────────── -/

/-- Sample thread record used by concrete checks. -/
def thread1 : RawThread :=
  { id := "t1", title := "Original title", selftext := "body text",
    subreddit := "r/startups", score := 3, num_comments := 2,
    url := "https://reddit.com/r/startups/1", top_comments := [] }

/-- Model output entry scoring `thread1` far below the relevance floor. -/
def entry5 : AnalyzedEntry :=
  { thread_id := some "t1", relevance_score := some 5, signal_type := some "demand" }

/-- Model output entry with an in-range score. -/
def entry30 : AnalyzedEntry :=
  { thread_id := some "t1", relevance_score := some 30, signal_type := some "demand" }

/-- Model output entry with a score far above the documented 0–100 range. -/
def entry150 : AnalyzedEntry :=
  { thread_id := some "t1", relevance_score := some 150, signal_type := some "pain_point" }

/-- Sample accumulated signal with a truthy thread id. -/
def sig1 : Signal :=
  { thread_id := some "a1", relevance_score := some 50,
    signal_type := some "pain_point", insight := none, competing_products := none,
    unmet_needs := none, key_quotes := none, title := "", url := "", subreddit := "",
    score := 0, num_comments := 0, source_query := "" }

/-- Collaborators that return nothing anywhere: generator yields no queries. -/
def trivialOracles : PureOracles :=
  { gen := [], refine := fun _ _ _ => [], search := fun _ _ => [],
    fetchComments := fun _ => [], analyze := fun _ _ _ _ => some [],
    synth := fun _ => SynthParsed.dict none none }

/-- One generated query for the concrete over-range-score run. -/
def query1 : SearchQuery := { query := some "widgets", intent := some "demand" }

/-- Collaborators whose analysis model emits a relevance score of 150. -/
def overScoreOracles : PureOracles :=
  { gen := [query1], refine := fun _ _ _ => [], search := fun _ _ => [thread1],
    fetchComments := fun _ => [], analyze := fun _ _ _ _ => some [entry150],
    synth := fun _ => SynthParsed.dict none none }

/-- Collaborators whose very first text-generation call raises an
authentication error. -/
def authFailOracles : Oracles :=
  { gen := .error .authError, refine := fun _ _ _ => .ok [],
    search := fun _ _ => [], fetchComments := fun _ => [],
    analyze := fun _ _ _ _ => .ok (some []),
    synth := fun _ => .ok (SynthParsed.dict none none) }

/- ───────────────────────── Claim theorems ───────────────────────────────── -/

/-- C1: for every behaviour of the (non-raising) external collaborators, the
orchestrator performs at most `MAX_ITERATIONS` (3) iterations; the first
control event is always a Query Generator invocation and refinement events
only occur in iterations ≥ 2; and after the loop exits the run always
proceeds to deduplication and synthesis (the trace ends with those stages,
the result's threads and final coverage are computed from the deduplicated
accumulation) and returns a result. -/
theorem C1_loop_termination (p : PureOracles) :
    ∃ ro : RunOut,
      run_engine_aux p.toOracles = Except.ok ro ∧
      ro.result.iterations ≤ MAX_ITERATIONS ∧
      (∃ rest, ro.trace = Event.generated p.gen.length :: rest) ∧
      (∀ i n, Event.refined i n ∈ ro.trace → 2 ≤ i) ∧
      (∃ evs, ro.trace = evs ++ [Event.deduplicated, Event.synthesized]) ∧
      ro.result.threads = sortSignals (dedupSignals ro.accum) ∧
      ro.result.coverage = evaluate_coverage (dedupSignals ro.accum) ∧
      ro.result.report = (reportDataOf (p.synth ro.synthInput)).report.getD "" := by
  refine ⟨runEngineP p, run_engine_aux_toOracles p, ?_, ?_, ?_, ?_, rfl, rfl, rfl⟩
  · have h := engineLoopP_iteration_le p MAX_ITERATIONS ⟨[], [], 0⟩
    simpa [runEngineP] using h
  · rcases engineLoopP_trace_head p MAX_ITERATIONS ⟨[], [], 0⟩ rfl
        (by norm_num [MAX_ITERATIONS]) with ⟨rest, hrest⟩
    exact ⟨rest ++ [Event.deduplicated, Event.synthesized], by simp [runEngineP, hrest]⟩
  · intro i n hin
    simp only [runEngineP] at hin
    rcases List.mem_append.mp hin with hin1 | hin2
    · exact (engineLoopP_refined_ge p MAX_ITERATIONS ⟨[], [], 0⟩ i n hin1).2
    · simp at hin2
  · exact ⟨(engineLoopP p MAX_ITERATIONS ⟨[], [], 0⟩).2, by simp [runEngineP]⟩

/-- C3: after the loop exits, the accumulation is deduplicated by `thread_id`
— the output is a sublist of the accumulation (order preserved), every
survivor is the first occurrence of its id, no two survivors share an id —
the final coverage in the result is computed over the deduplicated
population, and the final thread list is the deduplicated population sorted
by descending relevance score. -/
theorem C3_dedup_and_final_coverage (p : PureOracles) :
    ∃ ro : RunOut,
      run_engine_aux p.toOracles = Except.ok ro ∧
      ro.result.threads = sortSignals (dedupSignals ro.accum) ∧
      ro.result.coverage = evaluate_coverage (dedupSignals ro.accum) ∧
      (∀ l : List Signal, (dedupSignals l).Sublist l) ∧
      (∀ (l : List Signal) (s : Signal), s ∈ dedupSignals l →
        l.find? (fun t => tidOf t = tidOf s) = some s) ∧
      (∀ l : List Signal, (dedupSignals l).Pairwise fun a b => tidOf a ≠ tidOf b) ∧
      (∀ l : List Signal, (sortSignals l).Perm l ∧ (sortSignals l).Sorted relevanceDesc) := by
  refine ⟨runEngineP p, run_engine_aux_toOracles p, rfl, rfl,
    fun l => dedupGo_sublist [] l,
    fun l s hs => (dedupGo_first_occurrence [] l s hs).2.2,
    fun l => dedupGo_pairwise [] l,
    fun l => ⟨sortSignals_perm l, sortSignals_sorted l⟩⟩

/-- C3 witness: the dedup facts applied to a concrete two-element collection
with a duplicated thread id. -/
theorem C3_witness :
    ([sig1, { sig1 with title := "other content" }] : List Signal).find?
      (fun t => tidOf t = tidOf sig1) = some sig1 := by
  rcases C3_dedup_and_final_coverage trivialOracles with ⟨ro, _, _, _, _, hfind, _, _⟩
  exact hfind [sig1, { sig1 with title := "other content" }] sig1 (by decide)

theorem categoryCount_bump_ne (c : Counts) (X Y : String) (hX : X ∈ MEANINGFUL_TYPES)
    (hY : Y ∈ MEANINGFUL_TYPES) (hne : Y ≠ X) :
    categoryCount (bumpCounts c X) Y = categoryCount c Y := by
  simp only [MEANINGFUL_TYPES, List.mem_cons, List.not_mem_nil, or_false] at hX hY
  rcases hX with rfl | rfl | rfl | rfl <;> rcases hY with rfl | rfl | rfl | rfl <;>
    simp_all [categoryCount, bumpCounts]

theorem gapsOf_bump_length_le (c : Counts) (X : String) (hX : X ∈ MEANINGFUL_TYPES) :
    (gapsOf (bumpCounts c X)).length ≤ (gapsOf c).length := by
  simp only [MEANINGFUL_TYPES, List.mem_cons, List.not_mem_nil, or_false] at hX
  have h1 := gapPart_length_mono "pain_point" c.pain_point
  have h2 := gapPart_length_mono "competition" c.competition
  have h3 := gapPart_length_mono "demand" c.demand
  have h4 := gapPart_length_mono "skepticism" c.skepticism
  rcases hX with rfl | rfl | rfl | rfl <;>
    simp [bumpCounts, gapsOf] <;> omega

/-- C6: appending one new signal of a meaningful category X to a collection
can only keep the gap list the same size or shrink it; the counts of the
other three categories — and hence their gap entries — are unchanged. -/
theorem C6_gap_monotonicity (C : List Signal) (t : Signal)
    (hX : signalTypeOf t ∈ MEANINGFUL_TYPES) :
    ((evaluate_coverage (C ++ [t])).gaps.length ≤ (evaluate_coverage C).gaps.length) ∧
    (∀ Y ∈ MEANINGFUL_TYPES, Y ≠ signalTypeOf t →
      categoryCount (evaluate_coverage (C ++ [t])).counts Y =
        categoryCount (evaluate_coverage C).counts Y ∧
      gapPart Y (categoryCount (evaluate_coverage (C ++ [t])).counts Y) =
        gapPart Y (categoryCount (evaluate_coverage C).counts Y)) := by
  have hc := evaluate_coverage_append_counts C t
  have hg1 : (evaluate_coverage (C ++ [t])).gaps =
      gapsOf (evaluate_coverage (C ++ [t])).counts := rfl
  have hg2 : (evaluate_coverage C).gaps = gapsOf (evaluate_coverage C).counts := rfl
  constructor
  · rw [hg1, hg2, hc]
    exact gapsOf_bump_length_le _ _ hX
  · intro Y hY hne
    rw [hc, categoryCount_bump_ne _ _ _ hX hY hne]
    exact ⟨rfl, rfl⟩

/-- C6 witness: adding one pain-point signal to the empty collection does not
grow the gap list, and leaves the demand count and gap entry unchanged. -/
theorem C6_witness :
    ((evaluate_coverage ([] ++ [sig1])).gaps.length ≤ (evaluate_coverage []).gaps.length) ∧
    categoryCount (evaluate_coverage ([] ++ [sig1])).counts "demand" =
      categoryCount (evaluate_coverage []).counts "demand" := by
  have h := C6_gap_monotonicity [] sig1 (by decide)
  exact ⟨h.1, (h.2 "demand" (by decide) (by decide)).1⟩

/-- C7: when the Query Generator yields no queries in iteration 1, the loop
stops immediately — no search and no analysis happen — and the run still
returns a complete result: empty thread list, report and scores obtained by
invoking the Synthesizer on the empty signal set. -/
theorem C7_empty_generator (p : PureOracles) (hgen : p.gen = []) :
    ∃ ro : RunOut,
      run_engine_aux p.toOracles = Except.ok ro ∧
      ro.result.threads = [] ∧
      ro.result.iterations = 1 ∧
      ro.synthInput = [] ∧
      ro.result.report = (reportDataOf (p.synth [])).report.getD "" ∧
      ro.result.scores = (reportDataOf (p.synth [])).scores.getD [] ∧
      (∀ i n, Event.searched i n ∉ ro.trace) ∧
      (∀ i q, Event.analyzed i q ∉ ro.trace) := by
  have hloop : engineLoopP p MAX_ITERATIONS ⟨[], [], 0⟩ =
      (⟨[], [], 1⟩, [Event.generated 0, Event.emptyQueries 1]) := by
    show engineLoopP p (Nat.succ 2) ⟨[], [], 0⟩ = _
    simp [engineLoopP, queriesStepP, hgen]
  refine ⟨runEngineP p, run_engine_aux_toOracles p, ?_, ?_, ?_, ?_, ?_, ?_, ?_⟩ <;>
    simp [runEngineP, hloop, dedupSignals, dedupGo, sortSignals, synthTop,
      List.insertionSort]

/-- C7 witness: the empty-generator exit at a concrete collaborator stub. -/
theorem C7_witness :
    ∃ ro : RunOut,
      run_engine_aux trivialOracles.toOracles = Except.ok ro ∧
      ro.result.threads = [] ∧
      ro.result.iterations = 1 ∧
      ro.synthInput = [] ∧
      ro.result.report = (reportDataOf (trivialOracles.synth [])).report.getD "" ∧
      ro.result.scores = (reportDataOf (trivialOracles.synth [])).scores.getD [] ∧
      (∀ i n, Event.searched i n ∉ ro.trace) ∧
      (∀ i q, Event.analyzed i q ∉ ro.trace) :=
  C7_empty_generator trivialOracles rfl

/-- C8: a transport-level (authentication/quota) failure of the
text-generation collaborator on the very first call propagates out of the
orchestrator unchanged; no `EngineResult` is produced. -/
theorem C8_fatal_auth (o : Oracles) (e : EngineError) (hgen : o.gen = Except.error e) :
    run_reddit_signal_engine o = Except.error e := by
  have hloop : engineLoop o MAX_ITERATIONS ⟨[], [], 0⟩ = .error e := by
    show engineLoop o (Nat.succ 2) ⟨[], [], 0⟩ = _
    simp [engineLoop, queriesStep, hgen]
  unfold run_reddit_signal_engine run_engine_aux
  rw [hloop]
  rfl

/-- C8 witness: the propagation at a concrete failing collaborator stub. -/
theorem C8_witness :
    run_reddit_signal_engine authFailOracles = Except.error EngineError.authError :=
  C8_fatal_auth authFailOracles EngineError.authError rfl

/-- C9: a parsed JSON object containing exactly one of the wrapper keys
(queries, results, threads, signals, data) with a list value is unwrapped by
the Response Normalizer to that inner list; in particular
`{"queries": [1,2,3]}` normalizes to `[1,2,3]`. -/
theorem C9_wrapper_unwrap :
    (∀ (kvs : List (String × Json)) (k : String) (xs : List Json),
      k ∈ WRAPPER_KEYS →
      pyDictGet kvs k = some (Json.arr xs) →
      (∀ k2 ∈ WRAPPER_KEYS, k2 ≠ k → pyDictGet kvs k2 = none) →
      safe_parse_json (some (Json.obj kvs)) = Json.arr xs) ∧
    safe_parse_json (some (Json.obj
      [("queries", Json.arr [Json.num 1, Json.num 2, Json.num 3])])) =
      Json.arr [Json.num 1, Json.num 2, Json.num 3] := by
  constructor
  · intro kvs k xs hk hget habs
    have hunwrap : unwrapWrapperKeys kvs = some xs := by
      have habs2 : ∀ k2 ∈ WRAPPER_KEYS, k2 ≠ k →
          (match pyDictGet kvs k2 with
            | some (Json.arr ys) => some (Json.arr ys)
            | _ => none) = (none : Option Json) := by
        intro k2 hk2 hne
        rw [habs k2 hk2 hne]
      unfold unwrapWrapperKeys WRAPPER_KEYS
      simp only [WRAPPER_KEYS, List.mem_cons, List.not_mem_nil, or_false] at hk
      rcases hk with rfl | rfl | rfl | rfl | rfl <;>
        simp [List.findSome?, hget] <;>
        first
          | rfl
          | (repeat
              first
                | rw [habs _ (by simp [WRAPPER_KEYS]) (by decide)]
                | rfl)
    simp only [safe_parse_json, hunwrap]
  · rfl

/-- C9 witness: the unwrap rule applied at the concrete `{"queries": [1,2,3]}`
object. -/
theorem C9_witness :
    safe_parse_json (some (Json.obj
      [("queries", Json.arr [Json.num 1, Json.num 2, Json.num 3])])) =
      Json.arr [Json.num 1, Json.num 2, Json.num 3] := by
  refine C9_wrapper_unwrap.1
    [("queries", Json.arr [Json.num 1, Json.num 2, Json.num 3])] "queries"
    [Json.num 1, Json.num 2, Json.num 3] (by simp [WRAPPER_KEYS]) rfl ?_
  intro k2 hk2 hne
  simp only [WRAPPER_KEYS, List.mem_cons, List.not_mem_nil, or_false] at hk2
  rcases hk2 with rfl | rfl | rfl | rfl | rfl
  · exact absurd rfl hne
  · rfl
  · rfl
  · rfl
  · rfl

/-- C2 counterexample: the Thread Analyzer itself performs no relevance
filtering — when the analysis model returns an entry scored 5 (below the
floor of 20), `analyze_threads` includes it in its output unchanged. -/
theorem C2_counterexample :
    ∃ s ∈ analyze_threads (some [entry5]) "widget pain" "demand" [thread1],
      s.relevance_score = some 5 ∧ (5 : Int) < 20 := by
  refine ⟨mergeEntry [thread1] "widget pain" entry5, ?_, rfl, by norm_num⟩
  simp [analyze_threads]

/-- C2 (amended): the analyzer passes each model entry's `relevance_score`
through unchanged — missing scores stay missing, no synthetic default is
injected — so its output satisfies the ≥ 20 floor exactly when the model
output (which the prompt instructs to pre-filter) already does. -/
theorem C2_relevance_floor_amended (mo : List AnalyzedEntry) (q i : String)
    (th : List RawThread) :
    ((analyze_threads (some mo) q i th).map Signal.relevance_score =
      if th.isEmpty then [] else mo.map AnalyzedEntry.relevance_score) ∧
    ((∀ a ∈ mo, 20 ≤ a.relevance_score.getD 0) →
      ∀ s ∈ analyze_threads (some mo) q i th, 20 ≤ s.relevance_score.getD 0) := by
  refine ⟨analyze_threads_scores mo q i th, ?_⟩
  intro hfloor s hs
  rcases analyze_threads_mem hs with ⟨a, ha, rfl⟩
  rw [mergeEntry_relevance]
  exact hfloor a ha

/-- C2 witness: the amended statement applied at a floor-respecting model
output. -/
theorem C2_witness :
    20 ≤ (mergeEntry [thread1] "q" entry30).relevance_score.getD 0 := by
  refine (C2_relevance_floor_amended [entry30] "q" "demand" [thread1]).2
    (by decide) (mergeEntry [thread1] "q" entry30) ?_
  simp [analyze_threads]

/-- C4 counterexample: an out-of-range relevance score (150) emitted by the
analysis model is propagated unchecked into the final result's thread list —
nothing clamps or rejects it. -/
theorem C4_counterexample :
    ∃ ro : RunOut,
      run_engine_aux overScoreOracles.toOracles = Except.ok ro ∧
      (∃ s ∈ ro.result.threads, s.relevance_score = some 150) ∧
      ¬((150 : Int) ≤ 100) := by
  refine ⟨runEngineP overScoreOracles, run_engine_aux_toOracles overScoreOracles,
    ?_, by norm_num⟩
  decide

/-- C4 (amended): the engine performs no clamping or validation of
`relevance_score`; it stores and sorts the model-given value unchanged, so the
[0,100] invariant holds for the result exactly when every analysis-model
output respects it. -/
theorem C4_score_range_amended (p : PureOracles)
    (hmodel : ∀ it q t th, ∀ a ∈ (p.analyze it q t th).getD [],
      0 ≤ a.relevance_score.getD 0 ∧ a.relevance_score.getD 0 ≤ 100) :
    ∃ ro : RunOut,
      run_engine_aux p.toOracles = Except.ok ro ∧
      ∀ s ∈ ro.result.threads,
        0 ≤ s.relevance_score.getD 0 ∧ s.relevance_score.getD 0 ≤ 100 := by
  refine ⟨runEngineP p, run_engine_aux_toOracles p, ?_⟩
  intro s hs
  simp only [runEngineP] at hs
  have hs1 : s ∈ dedupSignals (engineLoopP p MAX_ITERATIONS ⟨[], [], 0⟩).1.all_signals :=
    mem_sortSignals.mp hs
  have hs2 : s ∈ (engineLoopP p MAX_ITERATIONS ⟨[], [], 0⟩).1.all_signals :=
    (dedupGo_sublist [] _).subset hs1
  rcases engineLoopP_signals p MAX_ITERATIONS ⟨[], [], 0⟩ s hs2 with hnil | ⟨it, q, t, th, hfresh⟩
  · simp at hnil
  · rcases analyze_threads_mem_opt hfresh with ⟨l, hl, a, ha, rfl⟩
    rw [mergeEntry_relevance]
    have := hmodel it q t th a (by rw [hl]; exact ha)
    exact this

/-- C4 witness: the amended statement applied at a collaborator stub whose
analysis output is always empty (trivially in range). -/
theorem C4_witness :
    ∃ ro : RunOut,
      run_engine_aux trivialOracles.toOracles = Except.ok ro ∧
      ∀ s ∈ ro.result.threads,
        0 ≤ s.relevance_score.getD 0 ∧ s.relevance_score.getD 0 ≤ 100 := by
  refine C4_score_range_amended trivialOracles ?_
  intro it q t th a ha
  simp [trivialOracles] at ha

/-- C5: in the analyzer's merge, the factual fields (title, url, subreddit,
score, num_comments) of every produced signal come from the original thread
record matched by `thread_id` (or the `.get` defaults when no record
matches), and never from the model's output: changing the model-emitted
factual fields does not change the merge result at all. -/
theorem C5_factual_fields (mo : List AnalyzedEntry) (q i : String)
    (th : List RawThread) :
    (∀ s ∈ analyze_threads (some mo) q i th,
      ∃ a ∈ mo, s = mergeEntry th q a ∧
        (∀ orig, threadMapGet th (a.thread_id.getD "") = some orig →
          s.title = orig.title ∧ s.url = orig.url ∧ s.subreddit = orig.subreddit ∧
          s.score = orig.score ∧ s.num_comments = orig.num_comments) ∧
        (threadMapGet th (a.thread_id.getD "") = none →
          s.title = "" ∧ s.url = "" ∧ s.subreddit = "" ∧
          s.score = 0 ∧ s.num_comments = 0)) ∧
    (∀ (a : AnalyzedEntry) (mt mu msub : Option String) (msc mnc : Option Int),
      mergeEntry th q
        { a with
          title := mt
          url := mu
          subreddit := msub
          score := msc
          num_comments := mnc } = mergeEntry th q a) := by
  constructor
  · intro s hs
    rcases analyze_threads_mem hs with ⟨a, ha, rfl⟩
    refine ⟨a, ha, rfl, ?_, ?_⟩
    · intro orig horig
      simp [mergeEntry, horig]
    · intro hnone
      simp [mergeEntry, hnone]
  · intro a mt mu msub msc mnc
    rfl

/-- C5 witness: the factual-field rule applied at a concrete merge, with the
model claiming a different title which is ignored. -/
theorem C5_witness :
    (mergeEntry [thread1] "q" entry30).title = thread1.title ∧
    mergeEntry [thread1] "q" { entry30 with title := some "hallucinated" } =
      mergeEntry [thread1] "q" entry30 := by
  constructor
  · rcases (C5_factual_fields [entry30] "q" "demand" [thread1]).1
        (mergeEntry [thread1] "q" entry30) (by simp [analyze_threads])
      with ⟨a, ha, heq, hsome, hnone⟩
    have ha2 : a = entry30 := by simpa using ha
    subst ha2
    exact (hsome thread1 rfl).1
  · exact (C5_factual_fields [entry30] "q" "demand" [thread1]).2
      entry30 (some "hallucinated") entry30.url entry30.subreddit
      entry30.score entry30.num_comments

/-- C10: a signal whose `thread_id` is missing or empty is dropped by the
post-loop deduplication — it never reaches the result's thread list, the
synthesizer's input, or the final coverage (computed over the deduplicated
set) — yet the coverage evaluator itself is blind to `thread_id`, so the
mid-loop coverage evaluations that drive refinement do count such signals. -/
theorem C10_empty_tid_dropped :
    (∀ (l : List Signal) (s : Signal), s ∈ dedupSignals l → tidOf s ≠ "") ∧
    (∀ p : PureOracles, ∃ ro : RunOut,
      run_engine_aux p.toOracles = Except.ok ro ∧
      (∀ s ∈ ro.result.threads, tidOf s ≠ "") ∧
      (∀ s ∈ ro.synthInput, tidOf s ≠ "") ∧
      ro.result.coverage = evaluate_coverage (dedupSignals ro.accum)) ∧
    (∀ (l : List Signal) (f : Signal → Option String),
      evaluate_coverage (l.map fun s => { s with thread_id := f s }) =
        evaluate_coverage l) := by
  refine ⟨fun l s hs => (dedupGo_first_occurrence [] l s hs).2.1, ?_,
    evaluate_coverage_ignores_thread_id⟩
  intro p
  refine ⟨runEngineP p, run_engine_aux_toOracles p, ?_, ?_, rfl⟩
  · intro s hs
    simp only [runEngineP] at hs
    exact (dedupGo_first_occurrence [] _ s (mem_sortSignals.mp hs)).2.1
  · intro s hs
    simp only [runEngineP, synthTop] at hs
    have hs2 := List.mem_of_mem_take hs
    exact (dedupGo_first_occurrence [] _ s (mem_sortSignals.mp hs2)).2.1

/-- C10 witness: the dedup-survivor rule applied at a concrete signal. -/
theorem C10_witness : tidOf sig1 ≠ "" :=
  C10_empty_tid_dropped.1 [sig1] sig1 (by decide)

/-- C1 witness: the loop bound and generator-first property at a concrete
collaborator stub. -/
theorem C1_witness :
    ∃ ro : RunOut,
      run_engine_aux trivialOracles.toOracles = Except.ok ro ∧
      ro.result.iterations ≤ MAX_ITERATIONS := by
  rcases C1_loop_termination trivialOracles with ⟨ro, h1, h2, _⟩
  exact ⟨ro, h1, h2⟩
